import Mathlib

/-!
Verification of the PyMuPlayer player core (src/PyMuPlayer.py): a shallow
embedding of the directory-lister and playback-controller logic, with
theorems checking the natural-language specification against it.

Modelling choices:
* A filesystem path is a list of name components from the root (`FsPath`),
  so the root is `[]`, `Path(p).parent` is `List.dropLast` (the parent of
  the root is the root, as in `pathlib`), and `Path(p) / name` is
  `p ++ [name]`.
* The filesystem is a function from paths to `Option (List Item)`:
  `some items` when the path is a directory with the given children (in
  `iterdir` order), `none` otherwise.  This models `Path.is_dir` and
  `Path.iterdir`.
* `str.lower()` is modelled with `Char.toLower` over the characters, and
  Python string comparison with code-point-lexicographic comparison on
  character lists (`lexLe`), because Lean's built-in `String` order does
  not reduce in the kernel.  Python's `sorted` is a stable sort by the key;
  it is modelled by a stable insertion sort under the same key comparison.
* Qt widgets are modelled by the state they carry: the `QListWidget` by the
  list of row names, each button by its enabled flag.  A click on a
  disabled button emits nothing, so button-driven handlers are gated on the
  flag in `step`.  Commands sent to the `QMediaPlayer` engine are collected
  in a `List Cmd` result.
-/

namespace PyMuPlayer

/-- A filesystem path, as its name components from the root (root = `[]`). -/
abbrev FsPath := List String

/-- One filesystem item as seen by `Path.iterdir`: its final name and
whether it is a directory. -/
structure Item where
  name : String
  isDir : Bool
deriving DecidableEq, Repr

/-- The filesystem and home directory the program runs against:
`fs p = some items` iff `p` is a directory whose `iterdir` yields `items`. -/
structure World where
  fs : FsPath → Option (List Item)
  home : FsPath

/-- `EXTENSIONS = {".aac", ".aif", ".aiff", ".flac", ".mp3", ".ogg", ".wav"}`
(line 45), as lists of characters. -/
def EXTENSIONS : List (List Char) :=
  [".aac".toList, ".aif".toList, ".aiff".toList, ".flac".toList,
   ".mp3".toList, ".ogg".toList, ".wav".toList]

/-- Index of the last `'.'` in a character list, if any (Python
`str.rfind('.')` restricted to a found result). -/
def lastDot : List Char → Option Nat
  | [] => none
  | c :: rest =>
    match lastDot rest with
    | some i => some (i + 1)
    | none => if c = '.' then some 0 else none

/-- `pathlib.PurePath.suffix`: the part of the name from its last dot on,
provided that dot is neither the first nor the last character; empty
otherwise. -/
def pySuffix (name : String) : List Char :=
  let cs := name.toList
  match lastDot cs with
  | some i => if 0 < i ∧ i + 1 < cs.length then cs.drop i else []
  | none => []

/-- Python `name.startswith(".")`. -/
def startsWithDot (name : String) : Bool :=
  match name.toList with
  | [] => false
  | c :: _ => c = '.'

/-- The filter of lines 96-102 / 268-273: keep an item iff its name does
not start with `"."` and it is a directory or a file whose lowered suffix
is in `EXTENSIONS`. -/
def keep (it : Item) : Bool :=
  !startsWithDot it.name &&
    (it.isDir || EXTENSIONS.contains ((pySuffix it.name).map Char.toLower))

/-- The item's name lowered, the second component of the sort key
`(not f.is_dir(), f.name.lower())` of lines 103-105. -/
def lowerName (it : Item) : List Char :=
  it.name.toList.map Char.toLower

/-- Code-point-lexicographic `≤` on character lists: Python's string
comparison. -/
def lexLe : List Char → List Char → Bool
  | [], _ => true
  | _ :: _, [] => false
  | a :: as, b :: bs =>
    if a.toNat < b.toNat then true
    else if b.toNat < a.toNat then false
    else lexLe as bs

/-- The comparison induced by Python's tuple key
`(not f.is_dir(), f.name.lower())`: directories (key component `False`)
before files, ties broken by the lowered name. -/
def keyLe (a b : Item) : Bool :=
  if a.isDir = b.isDir then lexLe (lowerName a) (lowerName b)
  else a.isDir && !b.isDir

/-- Insert an item in front of the first element it compares `≤` to. -/
def insertByKey (x : Item) : List Item → List Item
  | [] => [x]
  | y :: ys => if keyLe x y then x :: y :: ys else y :: insertByKey x ys

/-- Stable insertion sort under `keyLe`: the model of Python `sorted` with
the key of lines 103-105. -/
def sortByKey : List Item → List Item
  | [] => []
  | x :: xs => insertByKey x (sortByKey xs)

/-- `entries_sorted = sorted(entries, key=...)` applied to the filtered
entries: the Directory Lister on one folder's raw `iterdir` listing
(lines 96-105 and 264-278). -/
def listEntries (items : List Item) : List Item :=
  sortByKey (items.filter keep)

/-- The Directory Lister run on a folder of the filesystem; an invalid
folder yields no entries (the caller guards with `verify_location`). -/
def lister (w : World) (p : FsPath) : List Item :=
  listEntries ((w.fs p).getD [])

/-- A command issued to the external playback engine (`QMediaPlayer` /
`QAudioOutput`). -/
inductive Cmd where
  | play
  | pause
  | stop
  | setSource (p : FsPath)
  | seek (ms : Nat)
  | setVol (v : Int)
  | setMuted (b : Bool)
deriving DecidableEq, Repr

/-- The mutable program state: the module-level globals together with the
state carried by the widgets (row names of `files_list`, enabled flags of
the buttons).  `settingsLocation` / `settingsVolume` are the values in the
persisted `QSettings` store. -/
structure St where
  location : FsPath
  settingsLocation : FsPath
  listing : List String
  index : Int
  isPlaying : Bool
  title : String
  current : Nat
  length : Nat
  playPauseEnabled : Bool
  stopEnabled : Bool
  backEnabled : Bool
  forwardEnabled : Bool
  volume : Int
  settingsVolume : Int
  isMuted : Bool
deriving DecidableEq, Repr

/-- `verify_location` (lines 87-92): if the location is not a directory,
fall back to the home directory and persist the substitution. -/
def verify_location (w : World) (s : St) : St :=
  if (w.fs s.location).isSome then s
  else { s with location := w.home, settingsLocation := w.home }

/-- `update_files` (lines 264-278): verify the location, then refill
`files_list` with the names produced by the Directory Lister. -/
def update_files (w : World) (s : St) : St :=
  let s1 := verify_location w s
  { s1 with listing := (lister w s1.location).map Item.name }

/-- `change_location` (lines 280-284): persist the location, then
`update_files` (the location label is pure display and is not modelled). -/
def change_location (w : World) (s : St) : St :=
  update_files w { s with settingsLocation := s.location }

/-- `home` (lines 286-290): set the location to the home directory and
`change_location`. -/
def home (w : World) (s : St) : St :=
  change_location w { s with location := w.home }

/-- `go_up` (lines 292-296): set the location to its parent
(`Path(location).parent`, i.e. drop the last component; the parent of the
root is the root) and `change_location`. -/
def go_up (w : World) (s : St) : St :=
  change_location w { s with location := s.location.dropLast }

/-- `update_skip_buttons` (lines 321-330): disable both skip buttons,
return early when nothing is selected, else enable them according to the
position of `index` in the list. -/
def update_skip_buttons (s : St) : St :=
  let s1 := { s with backEnabled := false, forwardEnabled := false }
  if s1.index = -1 then s1
  else
    let s2 := if s1.index > 0 then { s1 with backEnabled := true } else s1
    if s2.index < (s2.listing.length : Int) - 1 then
      { s2 with forwardEnabled := true }
    else s2

/-- `update_length` (lines 145-150): `length = int(time / 1000)` (the
label and time-bar maximum are display only). -/
def update_length (s : St) (time : Nat) : St :=
  { s with length := time / 1000 }

/-- `update_current` (lines 156-161): `current = int(time / 1000)`. -/
def update_current (s : St) (time : Nat) : St :=
  { s with current := time / 1000 }

/-- `stop` (lines 177-190): engine stop, clear the playing flag, disable
play/pause and stop buttons, clear title and selection, zero both times,
refresh the skip buttons. -/
def stop (s : St) : St × List Cmd :=
  let s1 := { s with
    isPlaying := false
    playPauseEnabled := false
    stopEnabled := false
    title := ""
    index := -1 }
  let s2 := update_current (update_length s1 0) 0
  (update_skip_buttons s2, [Cmd.stop])

/-- `play` (lines 192-197): engine play and set the playing flag. -/
def play (s : St) : St × List Cmd :=
  ({ s with isPlaying := true }, [Cmd.play])

/-- `play_pause` (lines 199-207): when playing, engine pause and clear the
flag; otherwise `play`. -/
def play_pause (s : St) : St × List Cmd :=
  if s.isPlaying then ({ s with isPlaying := false }, [Cmd.pause])
  else play s

/-- `double_click` (lines 303-319) on the row named `name` at position
`row` of `files_list`: a directory navigates into it, a file is loaded
(`setSource`), titled, selected and played.  A `row` outside the list (the
widget would yield no item) is modelled as no change. -/
def double_click (w : World) (s : St) (row : Nat) : St × List Cmd :=
  match s.listing[row]? with
  | none => (s, [])
  | some name =>
    let selected := s.location ++ [name]
    if (w.fs selected).isSome then
      (change_location w { s with location := selected }, [])
    else
      let s1 := { s with
        title := name
        playPauseEnabled := true
        stopEnabled := true
        index := (row : Int) }
      let p := play s1
      (update_skip_buttons p.1, Cmd.setSource selected :: p.2)

/-- `next` (lines 216-220): when `index < files_list.count() - 1`, select
row `index + 1` and double-click it; otherwise nothing. -/
def next (w : World) (s : St) : St × List Cmd :=
  if s.index < (s.listing.length : Int) - 1 then
    double_click w s (s.index + 1).toNat
  else (s, [])

/-- `previous` (lines 171-175): when `index > 0`, select row `index - 1`
and double-click it; otherwise nothing. -/
def previous (w : World) (s : St) : St × List Cmd :=
  if s.index > 0 then double_click w s (s.index - 1).toNat
  else (s, [])

/-- `finished` (lines 333-336): on the end-of-media status, `next()`. -/
def finished (w : World) (s : St) (endOfMedia : Bool) : St × List Cmd :=
  if endOfMedia then next w s else (s, [])

/-- `change_volume` (lines 133-139): store the new volume unchanged, send
it to the engine, and persist it. -/
def change_volume (s : St) (v : Int) : St × List Cmd :=
  ({ s with volume := v, settingsVolume := v }, [Cmd.setVol v])

/-- `mute` (lines 257-262): toggle the muted flag and forward it to the
engine; the stored volume is untouched. -/
def mute (s : St) : St × List Cmd :=
  ({ s with isMuted := !s.isMuted }, [Cmd.setMuted (!s.isMuted)])

/-- An external event: a user gesture on a widget or an engine callback. -/
inductive Ev where
  | doubleClick (row : Nat)
  | clickPlayPause
  | clickStop
  | clickNext
  | clickPrev
  | clickHome
  | clickUp
  | clickRefresh
  | endOfMedia
  | durationChanged (ms : Nat)
  | positionChanged (ms : Nat)
  | setVolume (v : Int)
  | toggleMute
deriving DecidableEq, Repr

/-- One controller transition: the handler wired to each signal, guarded
by the button's enabled flag where the handler is only reachable through
that button (a click on a disabled `QPushButton` emits nothing). -/
def step (w : World) (s : St) : Ev → St × List Cmd
  | .doubleClick r => double_click w s r
  | .clickPlayPause => if s.playPauseEnabled then play_pause s else (s, [])
  | .clickStop => if s.stopEnabled then stop s else (s, [])
  | .clickNext => if s.forwardEnabled then next w s else (s, [])
  | .clickPrev => if s.backEnabled then previous w s else (s, [])
  | .clickHome => (home w s, [])
  | .clickUp => (go_up w s, [])
  | .clickRefresh => (update_files w s, [])
  | .endOfMedia => finished w s true
  | .durationChanged ms => (update_length s ms, [])
  | .positionChanged ms => (update_current s ms, [])
  | .setVolume v => change_volume s v
  | .toggleMute => mute s

/-- The state after module-level startup (lines 79-112, 338-430): location
read from settings and verified, listing computed, nothing selected or
playing, stop/back/forward buttons disabled — but the play/pause button is
created enabled (line 351 never disables it) — and `change_volume(volume)`
run once (line 391). -/
def init (w : World) (loc0 : FsPath) (vol0 : Int) : St :=
  let s0 : St := {
    location := loc0
    settingsLocation := loc0
    listing := []
    index := -1
    isPlaying := false
    title := ""
    current := 0
    length := 0
    playPauseEnabled := true
    stopEnabled := false
    backEnabled := false
    forwardEnabled := false
    volume := vol0
    settingsVolume := vol0
    isMuted := false }
  let s1 := verify_location w s0
  let s2 := { s1 with listing := (lister w s1.location).map Item.name }
  (change_volume s2 vol0).1

/-- The spec's state invariant: `selectedIndex` is `-1` or a valid index
into the current entry list, and `isPlaying` implies a selection. -/
def Inv (s : St) : Prop :=
  (s.index = -1 ∨ (0 ≤ s.index ∧ s.index < (s.listing.length : Int)))
  ∧ (s.isPlaying = true → s.index ≠ -1)

instance : DecidablePred Inv := fun s => by
  unfold Inv
  infer_instance

/-- `Inv` strengthened with affordance consistency: the play/pause button
is enabled only when a track is selected. -/
def InvGated (s : St) : Prop :=
  Inv s ∧ (s.playPauseEnabled = true → s.index ≠ -1)

instance : DecidablePred InvGated := fun s => by
  unfold InvGated
  infer_instance

/-- Test filesystem: a root folder holding a subdirectory `d` (with one
audio file) and two audio files, plus an empty home directory `h`. -/
def wA : World where
  fs p :=
    if p = [] then some [⟨"d", true⟩, ⟨"c.mp3", false⟩, ⟨"b.mp3", false⟩]
    else if p = ["d"] then some [⟨"a.mp3", false⟩]
    else if p = ["h"] then some []
    else none
  home := ["h"]

/-- Test filesystem whose root holds only audio files. -/
def wB : World where
  fs p :=
    if p = [] then some [⟨"b.mp3", false⟩, ⟨"c.mp3", false⟩] else none
  home := []

/-- A plain stopped state at the root of `wA`. -/
def st0 : St where
  location := []
  settingsLocation := []
  listing := ["d", "b.mp3", "c.mp3"]
  index := -1
  isPlaying := false
  title := ""
  current := 0
  length := 0
  playPauseEnabled := false
  stopEnabled := false
  backEnabled := false
  forwardEnabled := false
  volume := 100
  settingsVolume := 100
  isMuted := false

/-- The startup state of `wA` rooted at `[]`. -/
def sInit : St := init wA [] 100

/-- `sInit` after double-clicking row 1 (`b.mp3`): playing, index 1. -/
def sPlay1 : St := (step wA sInit (Ev.doubleClick 1)).1

/-- `sInit` after double-clicking row 2 (`c.mp3`): playing the last
entry. -/
def sLast : St := (step wA sInit (Ev.doubleClick 2)).1

/-- Start in `wA` at folder `d`, play its only file, then navigate up:
playing with index 0 while the listing now has three entries and the
skip-forward button is still disabled. -/
def sStale : St :=
  (step wA (step wA (init wA ["d"] 100) (Ev.doubleClick 0)).1 Ev.clickUp).1

/-- The startup state of `wB` after double-clicking row 0: playing in a
folder that contains only audio files. -/
def sFilesOnly : St := (step wB (init wB [] 100) (Ev.doubleClick 0)).1

theorem lexLe_cons (a b : Char) (as bs : List Char) :
    lexLe (a :: as) (b :: bs) = true ↔
      a.toNat < b.toNat ∨ (a.toNat = b.toNat ∧ lexLe as bs = true) := by
  simp only [lexLe]
  by_cases h1 : a.toNat < b.toNat
  · simp [h1]
  · by_cases h2 : b.toNat < a.toNat
    · simp only [if_neg h1, if_pos h2]
      constructor
      · intro h
        exact absurd h (by simp)
      · intro h
        omega
    · have he : a.toNat = b.toNat := by omega
      simp [h1, h2, he]

theorem lexLe_total : ∀ as bs : List Char, (lexLe as bs || lexLe bs as) = true
  | [], _ => by simp [lexLe]
  | _ :: _, [] => by simp [lexLe]
  | a :: as, b :: bs => by
    simp only [Bool.or_eq_true, lexLe_cons]
    rcases Nat.lt_trichotomy a.toNat b.toNat with h | h | h
    · exact Or.inl (Or.inl h)
    · have h' := lexLe_total as bs
      simp only [Bool.or_eq_true] at h'
      rcases h' with h' | h'
      · exact Or.inl (Or.inr ⟨h, h'⟩)
      · exact Or.inr (Or.inr ⟨h.symm, h'⟩)
    · exact Or.inr (Or.inl h)

theorem lexLe_trans :
    ∀ as bs cs : List Char,
      lexLe as bs = true → lexLe bs cs = true → lexLe as cs = true
  | [], _, _, _, _ => by simp [lexLe]
  | _ :: _, [], _, h1, _ => by simp [lexLe] at h1
  | _ :: _, _ :: _, [], _, h2 => by simp [lexLe] at h2
  | a :: as, b :: bs, c :: cs, h1, h2 => by
    rw [lexLe_cons] at h1 h2 ⊢
    rcases h1 with h1 | ⟨e1, t1⟩
    · rcases h2 with h2 | ⟨e2, t2⟩
      · exact Or.inl (by omega)
      · exact Or.inl (by omega)
    · rcases h2 with h2 | ⟨e2, t2⟩
      · exact Or.inl (by omega)
      · exact Or.inr ⟨by omega, lexLe_trans as bs cs t1 t2⟩

theorem keyLe_total (a b : Item) : (keyLe a b || keyLe b a) = true := by
  cases ha : a.isDir <;> cases hb : b.isDir <;>
    simp_all [keyLe, lexLe_total]

theorem keyLe_trans (a b c : Item)
    (h1 : keyLe a b = true) (h2 : keyLe b c = true) : keyLe a c = true := by
  cases ha : a.isDir <;> cases hb : b.isDir <;> cases hc : c.isDir <;>
    simp_all [keyLe] <;> exact lexLe_trans _ _ _ h1 h2

/-- `keyLe` implies the two spec-facing ordering facts: directories come
first, and within one kind the lowered names are ordered. -/
theorem keyLe_elim {a b : Item} (h : keyLe a b = true) :
    (b.isDir = true → a.isDir = true)
    ∧ (a.isDir = b.isDir → lexLe (lowerName a) (lowerName b) = true) := by
  cases ha : a.isDir <;> cases hb : b.isDir <;> simp_all [keyLe]

theorem insertByKey_perm (x : Item) :
    ∀ l : List Item, (insertByKey x l).Perm (x :: l)
  | [] => List.Perm.refl _
  | y :: ys => by
    unfold insertByKey
    split
    · exact List.Perm.refl _
    · exact ((insertByKey_perm x ys).cons y).trans (List.Perm.swap x y ys)

theorem sortByKey_perm : ∀ l : List Item, (sortByKey l).Perm l
  | [] => List.Perm.refl _
  | x :: xs =>
    (insertByKey_perm x (sortByKey xs)).trans ((sortByKey_perm xs).cons x)

theorem insertByKey_pairwise (x : Item) :
    ∀ {l : List Item}, l.Pairwise (fun a b => keyLe a b = true) →
      (insertByKey x l).Pairwise (fun a b => keyLe a b = true)
  | [], _ => by simp [insertByKey]
  | y :: ys, h => by
    rw [List.pairwise_cons] at h
    obtain ⟨hy, hys⟩ := h
    unfold insertByKey
    split
    case isTrue hxy =>
      rw [List.pairwise_cons]
      refine ⟨?_, List.pairwise_cons.mpr ⟨hy, hys⟩⟩
      intro z hz
      rcases List.mem_cons.mp hz with rfl | hz
      · exact hxy
      · exact keyLe_trans _ _ _ hxy (hy z hz)
    case isFalse hxy =>
      rw [List.pairwise_cons]
      refine ⟨?_, insertByKey_pairwise x hys⟩
      intro z hz
      have hz' := (insertByKey_perm x ys).mem_iff.mp hz
      rcases List.mem_cons.mp hz' with rfl | hz'
      · have ht := keyLe_total z y
        simp only [Bool.or_eq_true] at ht
        rcases ht with h' | h'
        · exact absurd h' hxy
        · exact h'
      · exact hy z hz'

theorem sortByKey_pairwise :
    ∀ l : List Item, (sortByKey l).Pairwise (fun a b => keyLe a b = true)
  | [] => List.Pairwise.nil
  | x :: xs => insertByKey_pairwise x (sortByKey_pairwise xs)

/-- C6: For every folder whose contents mix hidden items, directories, and
audio and non-audio files, the Directory Lister output contains exactly
the items whose name does not start with `'.'` and that are either
directories or files whose extension, lowered, is in
{aac, aif, aiff, flac, mp3, ogg, wav}; all directories precede all files,
and within each group entries are in case-insensitive ascending order by
name. -/
theorem C6_lister_output (items : List Item) :
    (listEntries items).Perm (items.filter keep)
    ∧ (∀ it : Item, it ∈ listEntries items ↔
        (it ∈ items ∧ startsWithDot it.name = false
          ∧ (it.isDir = true
              ∨ ((pySuffix it.name).map Char.toLower) ∈ EXTENSIONS)))
    ∧ (listEntries items).Pairwise (fun a b =>
        (b.isDir = true → a.isDir = true)
        ∧ (a.isDir = b.isDir → lexLe (lowerName a) (lowerName b) = true)) := by
  refine ⟨sortByKey_perm (items.filter keep), ?_, ?_⟩
  · intro it
    unfold listEntries
    rw [(sortByKey_perm (items.filter keep)).mem_iff, List.mem_filter]
    simp [keep, Bool.and_eq_true, Bool.or_eq_true, and_assoc]
  · exact (sortByKey_pairwise (items.filter keep)).imp fun h => keyLe_elim h

/-- C7: whenever the stored folder location is not a valid accessible
directory, the location is replaced by the home directory and the
substitution is persisted; a valid location is left entirely unchanged. -/
theorem C7_verify_location (w : World) (s : St) :
    ((w.fs s.location).isSome = false →
        (verify_location w s).location = w.home
        ∧ (verify_location w s).settingsLocation = w.home)
    ∧ ((w.fs s.location).isSome = true → verify_location w s = s) := by
  unfold verify_location
  constructor
  · intro h
    simp [h]
  · intro h
    simp [h]

theorem C7_verify_location_witness :
    ((wA.fs (st0.location ++ ["gone"])).isSome = false
      ∧ (verify_location wA { st0 with location := ["gone"] }).location = wA.home
      ∧ (verify_location wA { st0 with location := ["gone"] }).settingsLocation
          = wA.home)
    ∧ ((wA.fs st0.location).isSome = true
      ∧ verify_location wA st0 = st0) :=
  ⟨⟨by decide, (C7_verify_location wA { st0 with location := ["gone"] }).1 (by decide)⟩,
   ⟨by decide, (C7_verify_location wA st0).2 (by decide)⟩⟩

/-- C4 counterexample: `change_volume` does not clamp — 150 is persisted
as 150 (not 100) and -5 as -5 (not 0). -/
theorem C4_counterexample :
    (change_volume st0 150).1.settingsVolume = 150
    ∧ (change_volume st0 (-5)).1.settingsVolume = -5
    ∧ (150 : Int) ≠ 100 ∧ (-5 : Int) ≠ 0 := by
  refine ⟨rfl, rfl, by decide, by decide⟩

/-- C4 (amended): for every integer v, SetVolume(v) applies and persists v
unchanged — there is no clamping in the controller; range limiting is left
to the external slider widget and engine. -/
theorem C4_volume_unclamped (s : St) (v : Int) :
    (change_volume s v).1.volume = v
    ∧ (change_volume s v).1.settingsVolume = v
    ∧ (change_volume s v).2 = [Cmd.setVol v] :=
  ⟨rfl, rfl, rfl⟩

@[simp] theorem usb_location (s : St) :
    (update_skip_buttons s).location = s.location := by
  unfold update_skip_buttons
  by_cases h1 : s.index = -1 <;> by_cases h2 : s.index > 0 <;>
    by_cases h3 : s.index < (s.listing.length : Int) - 1 <;> simp [h1, h2, h3]

@[simp] theorem usb_settingsLocation (s : St) :
    (update_skip_buttons s).settingsLocation = s.settingsLocation := by
  unfold update_skip_buttons
  by_cases h1 : s.index = -1 <;> by_cases h2 : s.index > 0 <;>
    by_cases h3 : s.index < (s.listing.length : Int) - 1 <;> simp [h1, h2, h3]

@[simp] theorem usb_listing (s : St) :
    (update_skip_buttons s).listing = s.listing := by
  unfold update_skip_buttons
  by_cases h1 : s.index = -1 <;> by_cases h2 : s.index > 0 <;>
    by_cases h3 : s.index < (s.listing.length : Int) - 1 <;> simp [h1, h2, h3]

@[simp] theorem usb_index (s : St) :
    (update_skip_buttons s).index = s.index := by
  unfold update_skip_buttons
  by_cases h1 : s.index = -1 <;> by_cases h2 : s.index > 0 <;>
    by_cases h3 : s.index < (s.listing.length : Int) - 1 <;> simp [h1, h2, h3]

@[simp] theorem usb_isPlaying (s : St) :
    (update_skip_buttons s).isPlaying = s.isPlaying := by
  unfold update_skip_buttons
  by_cases h1 : s.index = -1 <;> by_cases h2 : s.index > 0 <;>
    by_cases h3 : s.index < (s.listing.length : Int) - 1 <;> simp [h1, h2, h3]

@[simp] theorem usb_title (s : St) :
    (update_skip_buttons s).title = s.title := by
  unfold update_skip_buttons
  by_cases h1 : s.index = -1 <;> by_cases h2 : s.index > 0 <;>
    by_cases h3 : s.index < (s.listing.length : Int) - 1 <;> simp [h1, h2, h3]

@[simp] theorem usb_current (s : St) :
    (update_skip_buttons s).current = s.current := by
  unfold update_skip_buttons
  by_cases h1 : s.index = -1 <;> by_cases h2 : s.index > 0 <;>
    by_cases h3 : s.index < (s.listing.length : Int) - 1 <;> simp [h1, h2, h3]

@[simp] theorem usb_length (s : St) :
    (update_skip_buttons s).length = s.length := by
  unfold update_skip_buttons
  by_cases h1 : s.index = -1 <;> by_cases h2 : s.index > 0 <;>
    by_cases h3 : s.index < (s.listing.length : Int) - 1 <;> simp [h1, h2, h3]

@[simp] theorem usb_playPauseEnabled (s : St) :
    (update_skip_buttons s).playPauseEnabled = s.playPauseEnabled := by
  unfold update_skip_buttons
  by_cases h1 : s.index = -1 <;> by_cases h2 : s.index > 0 <;>
    by_cases h3 : s.index < (s.listing.length : Int) - 1 <;> simp [h1, h2, h3]

@[simp] theorem usb_stopEnabled (s : St) :
    (update_skip_buttons s).stopEnabled = s.stopEnabled := by
  unfold update_skip_buttons
  by_cases h1 : s.index = -1 <;> by_cases h2 : s.index > 0 <;>
    by_cases h3 : s.index < (s.listing.length : Int) - 1 <;> simp [h1, h2, h3]

/-- After `update_skip_buttons`, the back button is enabled iff a row is
selected and it is not the first; the forward button iff a row is selected
and it is not the last. -/
theorem usb_flags (s : St) :
    ((update_skip_buttons s).backEnabled = true ↔ (s.index ≠ -1 ∧ s.index > 0))
    ∧ ((update_skip_buttons s).forwardEnabled = true ↔
        (s.index ≠ -1 ∧ s.index < (s.listing.length : Int) - 1)) := by
  unfold update_skip_buttons
  by_cases h1 : s.index = -1 <;> by_cases h2 : s.index > 0 <;>
    by_cases h3 : s.index < (s.listing.length : Int) - 1 <;> simp [h1, h2, h3]

/-- C8: Stop from any Loaded sub-state issues the engine stop command and
yields selectedIndex = -1, isPlaying = false, both times 0 and an empty
title. -/
theorem C8_stop (s : St) (_hLoaded : 0 ≤ s.index) :
    (stop s).2 = [Cmd.stop]
    ∧ (stop s).1.index = -1
    ∧ (stop s).1.isPlaying = false
    ∧ (stop s).1.current = 0
    ∧ (stop s).1.length = 0
    ∧ (stop s).1.title = "" := by
  unfold stop
  simp [update_length, update_current]

theorem C8_stop_witness :
    (0 : Int) ≤ sPlay1.index
    ∧ ((stop sPlay1).2 = [Cmd.stop]
      ∧ (stop sPlay1).1.index = -1
      ∧ (stop sPlay1).1.isPlaying = false
      ∧ (stop sPlay1).1.current = 0
      ∧ (stop sPlay1).1.length = 0
      ∧ (stop sPlay1).1.title = "") :=
  ⟨by decide, C8_stop sPlay1 (by decide)⟩

/-- C2 counterexample: end-of-media while playing the last entry leaves
the state unchanged — selectedIndex stays at the last row and isPlaying
stays true, with no engine command — instead of transitioning to the
Stopped state the claim demands. -/
theorem C2_counterexample :
    sLast.isPlaying = true
    ∧ sLast.index = (sLast.listing.length : Int) - 1
    ∧ step wA sLast Ev.endOfMedia = (sLast, [])
    ∧ sLast.index ≠ -1 := by
  decide

/-- C2 (amended): EngineEndOfMedia behaves exactly as Next; when the
playing entry is the last entry of the list that Next is a no-op, so the
state is unchanged — no wraparound to the first entry, but no transition
to Stopped either. -/
theorem C2_end_of_media (w : World) (s : St) :
    finished w s true = next w s
    ∧ (s.index = (s.listing.length : Int) - 1 → finished w s true = (s, [])) := by
  constructor
  · rfl
  · intro h
    simp [finished, next, h]

theorem C2_end_of_media_witness :
    sLast.index = (sLast.listing.length : Int) - 1
    ∧ finished wA sLast true = (sLast, []) :=
  ⟨by decide, (C2_end_of_media wA sLast).2 (by decide)⟩

/-- C3 counterexample: double-clicking the directory row `d` while
`b.mp3` (row 1) is playing navigates into `d` but does not reset playback:
selectedIndex stays 1 and isPlaying stays true, while the claim demands
selectedIndex = -1 and isPlaying = false. -/
theorem C3_counterexample :
    sPlay1.isPlaying = true
    ∧ sPlay1.index = 1
    ∧ (step wA sPlay1 (Ev.doubleClick 0)).1.location = ["d"]
    ∧ (step wA sPlay1 (Ev.doubleClick 0)).1.isPlaying = true
    ∧ (step wA sPlay1 (Ev.doubleClick 0)).1.index = 1 := by
  decide

/-- C3 (amended): Select on a directory entry updates currentFolder to the
entry's path, persists it and re-runs the Directory Lister, listing the
new folder — but the playback state is not reset: selectedIndex, isPlaying
and the title are unchanged (playback continues and selectedIndex becomes
stale). -/
theorem C3_select_directory (w : World) (s : St) (r : Nat) (name : String)
    (hrow : s.listing[r]? = some name)
    (hdir : (w.fs (s.location ++ [name])).isSome = true) :
    (double_click w s r).2 = []
    ∧ (double_click w s r).1.location = s.location ++ [name]
    ∧ (double_click w s r).1.settingsLocation = s.location ++ [name]
    ∧ (double_click w s r).1.listing
        = (lister w (s.location ++ [name])).map Item.name
    ∧ (double_click w s r).1.index = s.index
    ∧ (double_click w s r).1.isPlaying = s.isPlaying
    ∧ (double_click w s r).1.title = s.title := by
  unfold double_click
  simp only [hrow]
  simp [hdir, change_location, update_files, verify_location]

theorem C3_select_directory_witness :
    (sPlay1.listing[0]? = some "d"
      ∧ (wA.fs (sPlay1.location ++ ["d"])).isSome = true)
    ∧ ((double_click wA sPlay1 0).2 = []
      ∧ (double_click wA sPlay1 0).1.location = sPlay1.location ++ ["d"]
      ∧ (double_click wA sPlay1 0).1.settingsLocation = sPlay1.location ++ ["d"]
      ∧ (double_click wA sPlay1 0).1.listing
          = (lister wA (sPlay1.location ++ ["d"])).map Item.name
      ∧ (double_click wA sPlay1 0).1.index = sPlay1.index
      ∧ (double_click wA sPlay1 0).1.isPlaying = sPlay1.isPlaying
      ∧ (double_click wA sPlay1 0).1.title = sPlay1.title) :=
  ⟨⟨by decide, by decide⟩,
   C3_select_directory wA sPlay1 0 "d" (by decide) (by decide)⟩

/-- C5 counterexample: in the initial Stopped state the play/pause button
is enabled, so TogglePlayPause is not a no-op there — it sets isPlaying
and issues the engine play command although selectedIndex = -1. -/
theorem C5_counterexample :
    sInit.index = -1
    ∧ sInit.isPlaying = false
    ∧ sInit.playPauseEnabled = true
    ∧ (step wA sInit Ev.clickPlayPause).1.isPlaying = true
    ∧ (step wA sInit Ev.clickPlayPause).2 = [Cmd.play] := by
  decide

/-- C5 (amended): TogglePlayPause is a no-op (no state change, no engine
command) exactly in the states where the play/pause control is disabled —
which Stop establishes — while in the initial Stopped state the control is
enabled and TogglePlayPause starts "playing" with nothing loaded; with the
control enabled it flips Playing to Paused and Paused to Playing, issuing
the engine pause or play command respectively. -/
theorem C5_toggle_play_pause (w : World) (s : St) :
    (s.playPauseEnabled = false → step w s Ev.clickPlayPause = (s, []))
    ∧ (s.playPauseEnabled = true → s.isPlaying = true →
        step w s Ev.clickPlayPause = ({ s with isPlaying := false }, [Cmd.pause]))
    ∧ (s.playPauseEnabled = true → s.isPlaying = false →
        step w s Ev.clickPlayPause = ({ s with isPlaying := true }, [Cmd.play]))
    ∧ (stop s).1.playPauseEnabled = false := by
  refine ⟨?_, ?_, ?_, ?_⟩
  · intro h
    simp [step, h]
  · intro h hp
    simp [step, h, play_pause, hp]
  · intro h hp
    simp [step, h, play_pause, hp, play]
  · simp [stop, update_length, update_current]

theorem C5_toggle_play_pause_witness :
    (sPlay1.playPauseEnabled = true ∧ sPlay1.isPlaying = true
      ∧ step wA sPlay1 Ev.clickPlayPause
          = ({ sPlay1 with isPlaying := false }, [Cmd.pause]))
    ∧ ((stop sPlay1).1.playPauseEnabled = false
      ∧ step wA (stop sPlay1).1 Ev.clickPlayPause = ((stop sPlay1).1, [])) :=
  ⟨⟨by decide, by decide,
    (C5_toggle_play_pause wA sPlay1).2.1 (by decide) (by decide)⟩,
   ⟨by decide,
    (C5_toggle_play_pause wA (stop sPlay1).1).1 (by decide)⟩⟩

theorem InvGated_stop (s : St) : InvGated (stop s).1 := by
  unfold stop
  simp [InvGated, Inv, update_length, update_current]

theorem InvGated_double_click (w : World) (s : St) (r : Nat)
    (h : InvGated s)
    (hfiles : ∀ name ∈ s.listing, w.fs (s.location ++ [name]) = none) :
    InvGated (double_click w s r).1 := by
  unfold double_click
  cases hrow : s.listing[r]? with
  | none => simpa using h
  | some name =>
    have hlt : r < s.listing.length := (List.getElem?_eq_some.mp hrow).1
    have hf : w.fs (s.location ++ [name]) = none :=
      hfiles name (List.getElem?_mem hrow)
    simp only [hf, Option.isSome_none, Bool.false_eq_true, if_false]
    dsimp only [play]
    constructor
    · constructor
      · exact Or.inr (by simp; omega)
      · intro _
        simp
    · intro _
      simp

theorem InvGated_play_pause_click (w : World) (s : St) (h : InvGated s) :
    InvGated (step w s Ev.clickPlayPause).1 := by
  obtain ⟨⟨hidx, hplay⟩, hgate⟩ := h
  simp only [step]
  by_cases hpp : s.playPauseEnabled = true
  · rw [if_pos hpp]
    unfold play_pause play
    by_cases hp : s.isPlaying = true
    · rw [if_pos hp]
      exact ⟨⟨by simpa using hidx, by simp⟩, by simpa using hgate⟩
    · rw [if_neg hp]
      exact ⟨⟨by simpa using hidx, by simpa using hgate hpp⟩,
             by simpa using hgate⟩
  · rw [if_neg hpp]
    exact ⟨⟨hidx, hplay⟩, hgate⟩

theorem InvGated_next (w : World) (s : St) (h : InvGated s)
    (hfiles : ∀ name ∈ s.listing, w.fs (s.location ++ [name]) = none) :
    InvGated (next w s).1 := by
  unfold next
  split
  · exact InvGated_double_click w s _ h hfiles
  · exact h

theorem InvGated_previous (w : World) (s : St) (h : InvGated s)
    (hfiles : ∀ name ∈ s.listing, w.fs (s.location ++ [name]) = none) :
    InvGated (previous w s).1 := by
  unfold previous
  split
  · exact InvGated_double_click w s _ h hfiles
  · exact h

/-- C1 counterexample: the initial state satisfies the invariant, yet one
operation — TogglePlayPause, whose button is enabled at startup — produces
isPlaying = true with selectedIndex = -1, the combination the claim says
no transition can produce. -/
theorem C1_counterexample :
    Inv sInit
    ∧ (step wA sInit Ev.clickPlayPause).1.isPlaying = true
    ∧ (step wA sInit Ev.clickPlayPause).1.index = -1
    ∧ ¬ Inv (step wA sInit Ev.clickPlayPause).1 := by
  decide

/-- C1 (amended): the invariant is not preserved by every operation — it
breaks on TogglePlayPause from the initial state (play/pause enabled with
nothing selected) and on folder-changing transitions during playback.  It
is preserved by Select, TogglePlayPause, Stop, Next, Previous,
EngineEndOfMedia and the duration/position/volume/mute events from any
state that also satisfies affordance consistency ("play/pause enabled
implies a track selected"), provided every entry of the current listing is
a file, so that no selection or skip changes the folder. -/
theorem C1_invariant_preservation (w : World) (s : St)
    (h : InvGated s)
    (hfiles : ∀ name ∈ s.listing, w.fs (s.location ++ [name]) = none) :
    InvGated (step w s Ev.clickStop).1
    ∧ InvGated (step w s Ev.clickPlayPause).1
    ∧ (∀ r, InvGated (step w s (Ev.doubleClick r)).1)
    ∧ InvGated (step w s Ev.clickNext).1
    ∧ InvGated (step w s Ev.clickPrev).1
    ∧ InvGated (step w s Ev.endOfMedia).1
    ∧ (∀ ms, InvGated (step w s (Ev.durationChanged ms)).1)
    ∧ (∀ ms, InvGated (step w s (Ev.positionChanged ms)).1)
    ∧ (∀ v, InvGated (step w s (Ev.setVolume v)).1)
    ∧ InvGated (step w s Ev.toggleMute).1 := by
  obtain ⟨⟨hidx, hplay⟩, hgate⟩ := h
  refine ⟨?_, ?_, ?_, ?_, ?_, ?_, ?_, ?_, ?_, ?_⟩
  · simp only [step]
    split
    · exact InvGated_stop s
    · exact ⟨⟨hidx, hplay⟩, hgate⟩
  · exact InvGated_play_pause_click w s ⟨⟨hidx, hplay⟩, hgate⟩
  · intro r
    exact InvGated_double_click w s r ⟨⟨hidx, hplay⟩, hgate⟩ hfiles
  · simp only [step]
    split
    · exact InvGated_next w s ⟨⟨hidx, hplay⟩, hgate⟩ hfiles
    · exact ⟨⟨hidx, hplay⟩, hgate⟩
  · simp only [step]
    split
    · exact InvGated_previous w s ⟨⟨hidx, hplay⟩, hgate⟩ hfiles
    · exact ⟨⟨hidx, hplay⟩, hgate⟩
  · simp only [step, finished, if_pos]
    exact InvGated_next w s ⟨⟨hidx, hplay⟩, hgate⟩ hfiles
  · intro ms
    exact ⟨⟨hidx, hplay⟩, hgate⟩
  · intro ms
    exact ⟨⟨hidx, hplay⟩, hgate⟩
  · intro v
    exact ⟨⟨hidx, hplay⟩, hgate⟩
  · exact ⟨⟨hidx, hplay⟩, hgate⟩

theorem C1_invariant_preservation_witness :
    (InvGated sFilesOnly
      ∧ (∀ name ∈ sFilesOnly.listing,
          wB.fs (sFilesOnly.location ++ [name]) = none))
    ∧ InvGated (step wB sFilesOnly Ev.clickNext).1 :=
  ⟨⟨by decide, by decide⟩,
   (C1_invariant_preservation wB sFilesOnly (by decide) (by decide)).2.2.2.1⟩

/-- C9 counterexample: play the only file of folder `d`, then navigate up
while it plays.  The state is Loaded with a valid selectedIndex (0 of 3),
Next would select row 1 — not a no-op — yet the skip-forward button is
still disabled, contradicting "disabled exactly when the move would be a
no-op". -/
theorem C9_counterexample :
    (0 : Int) ≤ sStale.index
    ∧ sStale.index < (sStale.listing.length : Int)
    ∧ sStale.forwardEnabled = false
    ∧ next wA sStale ≠ (sStale, []) := by
  decide

/-- C9 (amended): in every Loaded state with a valid selectedIndex, Next
behaves as Select on selectedIndex+1 when that index is in bounds and is a
no-op otherwise, and Previous likewise for selectedIndex-1; the skip
buttons satisfy "disabled exactly when the corresponding move would be a
no-op" in the state left by `update_skip_buttons` — which runs on Select
and Stop but not on folder navigation, so the flags can go stale after
navigating during playback. -/
theorem C9_next_previous (w : World) (s : St)
    (h0 : 0 ≤ s.index) (h1 : s.index < (s.listing.length : Int)) :
    (s.index + 1 < (s.listing.length : Int) →
        next w s = double_click w s (s.index + 1).toNat)
    ∧ (¬ s.index + 1 < (s.listing.length : Int) → next w s = (s, []))
    ∧ (0 ≤ s.index - 1 → previous w s = double_click w s (s.index - 1).toNat)
    ∧ (¬ 0 ≤ s.index - 1 → previous w s = (s, []))
    ∧ ((update_skip_buttons s).backEnabled = true ↔ 0 ≤ s.index - 1)
    ∧ ((update_skip_buttons s).forwardEnabled = true ↔
        s.index + 1 < (s.listing.length : Int)) := by
  refine ⟨?_, ?_, ?_, ?_, ?_, ?_⟩
  · intro h
    unfold next
    rw [if_pos (by omega)]
  · intro h
    unfold next
    rw [if_neg (by omega)]
  · intro h
    unfold previous
    rw [if_pos (by omega)]
  · intro h
    unfold previous
    rw [if_neg (by omega)]
  · rw [(usb_flags s).1]
    omega
  · rw [(usb_flags s).2]
    omega

theorem C9_next_previous_witness :
    ((0 : Int) ≤ sPlay1.index
      ∧ sPlay1.index < (sPlay1.listing.length : Int))
    ∧ next wA sPlay1 = double_click wA sPlay1 (sPlay1.index + 1).toNat
    ∧ ((update_skip_buttons sPlay1).forwardEnabled = true ↔
        sPlay1.index + 1 < (sPlay1.listing.length : Int)) :=
  ⟨⟨by decide, by decide⟩,
   (C9_next_previous wA sPlay1 (by decide) (by decide)).1 (by decide),
   (C9_next_previous wA sPlay1 (by decide) (by decide)).2.2.2.2.2⟩

/-- C10: when currentFolder is the filesystem root, NavigateUp computes
the parent of the root as the root itself, so currentFolder is unchanged
(and the operation is idempotent), while the location is still
re-persisted and the folder re-listed. -/
theorem C10_go_up_root (w : World) (s : St)
    (hroot : s.location = []) (hdir : (w.fs []).isSome = true) :
    (go_up w s).location = s.location
    ∧ (go_up w s).settingsLocation = []
    ∧ (go_up w s).listing = (lister w []).map Item.name
    ∧ go_up w (go_up w s) = go_up w s := by
  obtain ⟨loc, sl, li, ix, ip, ti, cu, le, pp, se, be, fe, vo, sv, im⟩ := s
  simp only at hroot
  subst hroot
  simp [go_up, change_location, update_files, verify_location, hdir]

theorem C10_go_up_root_witness :
    (st0.location = [] ∧ (wA.fs []).isSome = true)
    ∧ ((go_up wA st0).location = st0.location
      ∧ (go_up wA st0).settingsLocation = []
      ∧ (go_up wA st0).listing = (lister wA []).map Item.name
      ∧ go_up wA (go_up wA st0) = go_up wA st0) :=
  ⟨⟨rfl, by decide⟩, C10_go_up_root wA st0 rfl (by decide)⟩

end PyMuPlayer
